import Mathlib

/-
Verification of the fast-imbalance-trading engine (src/src/main.rs).

Modelling conventions:
* f64 values flowing through the signal calculators are modelled by the
  extended type FP below: a finite rational, NaN, or a signed infinity.
  Finite arithmetic is exact rational arithmetic (no rounding and no
  overflow: a finite operation on finite operands stays finite, whereas
  f64 can overflow to an infinity); the IEEE-754 special-value
  propagation rules for add, sub, mul, div, comparison and abs are
  modelled faithfully, with the single zero of the rationals playing
  the role of IEEE +0.0.  Theorems that sit at the finite/non-finite
  boundary are therefore phrased so that their conclusions do not rely
  on finite operations staying finite: they either condition on the
  computed value itself being finite, or they claim only comparison
  facts that infinities satisfy as well.
* The ledger (TradingState) operations, whose claims are exact algebraic
  identities on cash and position counts, are modelled over plain
  rationals; Vec push/pop becomes append-at-end / dropLast on lists.
-/

namespace FastImbalance

/-- Extended value model for f64: a finite rational, NaN, or a signed
infinity. -/
inductive FP where
  | fin : ℚ → FP
  | nan : FP
  | inf : FP
  | ninf : FP
deriving DecidableEq, Repr

/-- IEEE negation on the extended values. -/
def fpNeg : FP → FP
  | .fin q => .fin (-q)
  | .nan => .nan
  | .inf => .ninf
  | .ninf => .inf

/-- IEEE addition: NaN propagates, opposite infinities give NaN. -/
def fpAdd : FP → FP → FP
  | .nan, _ => .nan
  | _, .nan => .nan
  | .inf, .ninf => .nan
  | .ninf, .inf => .nan
  | .inf, _ => .inf
  | _, .inf => .inf
  | .ninf, _ => .ninf
  | _, .ninf => .ninf
  | .fin a, .fin b => .fin (a + b)

/-- IEEE subtraction, as addition of the negation. -/
def fpSub (a b : FP) : FP := fpAdd a (fpNeg b)

/-- IEEE multiplication: NaN propagates, infinity times zero is NaN. -/
def fpMul : FP → FP → FP
  | .nan, _ => .nan
  | _, .nan => .nan
  | .inf, .inf => .inf
  | .inf, .ninf => .ninf
  | .ninf, .inf => .ninf
  | .ninf, .ninf => .inf
  | .inf, .fin q => if 0 < q then .inf else if q < 0 then .ninf else .nan
  | .fin q, .inf => if 0 < q then .inf else if q < 0 then .ninf else .nan
  | .ninf, .fin q => if 0 < q then .ninf else if q < 0 then .inf else .nan
  | .fin q, .ninf => if 0 < q then .ninf else if q < 0 then .inf else .nan
  | .fin a, .fin b => .fin (a * b)

/-- IEEE division: x/0 is a signed infinity for x nonzero (the model's
zero is +0.0), 0/0 and inf/inf are NaN, finite/inf is 0. -/
def fpDiv : FP → FP → FP
  | .nan, _ => .nan
  | _, .nan => .nan
  | .inf, .inf => .nan
  | .inf, .ninf => .nan
  | .ninf, .inf => .nan
  | .ninf, .ninf => .nan
  | .inf, .fin q => if q < 0 then .ninf else .inf
  | .ninf, .fin q => if q < 0 then .inf else .ninf
  | .fin _, .inf => .fin 0
  | .fin _, .ninf => .fin 0
  | .fin a, .fin b =>
      if b = 0 then
        if 0 < a then .inf else if a < 0 then .ninf else .nan
      else .fin (a / b)

/-- IEEE comparison a <= b: false whenever either side is NaN. -/
def fpLe : FP → FP → Bool
  | .nan, _ => false
  | _, .nan => false
  | .ninf, _ => true
  | _, .inf => true
  | .inf, _ => false
  | _, .ninf => false
  | .fin a, .fin b => decide (a ≤ b)

/-- IEEE comparison a < b: false whenever either side is NaN. -/
def fpLt : FP → FP → Bool
  | .nan, _ => false
  | _, .nan => false
  | .inf, _ => false
  | _, .ninf => false
  | .ninf, _ => true
  | _, .inf => true
  | .fin a, .fin b => decide (a < b)

/-- IEEE absolute value. -/
def fpAbs : FP → FP
  | .fin q => .fin |q|
  | .nan => .nan
  | .inf => .inf
  | .ninf => .inf

/-- Whether an extended value is finite (neither NaN nor an infinity). -/
def FP.isFinite : FP → Bool
  | .fin _ => true
  | _ => false

/-- One price level of an order-book side (price and amount are f64 in
the source). -/
structure Level where
  price : FP
  amount : FP
deriving DecidableEq, Repr

/-- A top-of-book snapshot: the bid and ask sides, best level first. -/
structure OrderBook where
  bids : List Level
  asks : List Level
deriving DecidableEq, Repr

/-- Sum of the amount field over a side, as the source's iterator sum:
a left fold of f64 addition starting from 0.0. -/
def sumAmounts (levels : List Level) : FP :=
  (levels.map Level.amount).foldl fpAdd (FP.fin 0)

/-- TradingState.calculate_voi (main.rs:35-40): returns
(voi, bid_volume, ask_volume). -/
def calculate_voi (order_book : OrderBook) : FP × FP × FP :=
  let bid_volume := sumAmounts order_book.bids
  let ask_volume := sumAmounts order_book.asks
  (fpSub bid_volume ask_volume, bid_volume, ask_volume)

/-- TradingState.calculate_oir (main.rs:42-44). -/
def calculate_oir (bid_volume ask_volume : FP) : FP :=
  fpDiv (fpSub bid_volume ask_volume) (fpAdd bid_volume ask_volume)

/-- TradingState.calculate_mpb (main.rs:46-48). -/
def calculate_mpb (last_price mid_price : FP) : FP :=
  fpSub last_price mid_price

/-- TradingState.calculate_spread (main.rs:50-52). -/
def calculate_spread (bid ask : FP) : FP :=
  fpMul (fpDiv (fpSub ask bid) bid) (FP.fin 100)

/-- TradingState.should_trade (main.rs:54-56). -/
def should_trade (spread voi spread_threshold : FP) : Bool :=
  fpLe spread spread_threshold && fpLt (FP.fin 0) (fpAbs voi)

/-- Constant TRADE_SIZE = 0.001 (main.rs:12), as an exact rational. -/
def TRADE_SIZE : ℚ := 1 / 1000

/-- Constant SPREAD_THRESHOLD = 0.05 (main.rs:13). -/
def SPREAD_THRESHOLD : ℚ := 1 / 20

/-- Constant TAKE_PROFIT = 0.01 (main.rs:14). -/
def TAKE_PROFIT : ℚ := 1 / 100

/-- Constant STOP_LOSS = 0.02 (main.rs:15). -/
def STOP_LOSS : ℚ := 1 / 50

/-- Constant TRANSACTION_COST = 0.005 (main.rs:16). -/
def TRANSACTION_COST : ℚ := 1 / 200

/-- The string literal used for the buy side of execute_trade. -/
def buySide : String := "buy"

/-- The string literal used for the sell side of execute_trade. -/
def sellSide : String := "sell"

/-- The symbol the loop constructs the state with (main.rs:124). -/
def btcUsdt : String := "BTC/USDT"

/-- TradingState (main.rs:20-24): cash, open positions (entry prices,
most recent last, matching Vec push/pop order), and the symbol. -/
structure TradingState where
  cash : ℚ
  positions : List ℚ
  symbol : String
deriving DecidableEq, Repr

/-- TradingState::new (main.rs:27-33). -/
def TradingState.new (cash : ℚ) (symbol : String) : TradingState :=
  { cash := cash, positions := [], symbol := symbol }

/-- TradingState::execute_trade (main.rs:58-84).  Buy pushes the price
onto the positions vector and debits cash by price*size plus the
transaction cost; sell pops the most recent position if one exists and
credits cash by price*size minus the transaction cost, and is a no-op
when the vector is empty; any other side string does nothing. -/
def execute_trade (st : TradingState) (price : ℚ) (side : String)
    (trade_size fee : ℚ) : TradingState :=
  let transaction_cost := trade_size * price * fee
  if side = buySide then
    { st with
      positions := st.positions ++ [price],
      cash := st.cash - (price * trade_size + transaction_cost) }
  else if side = sellSide then
    match st.positions.getLast? with
    | some _ =>
        { st with
          positions := st.positions.dropLast,
          cash := st.cash + (price * trade_size - transaction_cost) }
    | none => st
  else st

/-- The marking pass of check_tp_sl (main.rs:87-106): collect every
position whose profit/loss (bid - entry)/entry reaches the take-profit
threshold or falls to the stop-loss threshold. -/
def markPositions (positions : List ℚ) (bid tp sl : ℚ) : List ℚ :=
  positions.filter
    (fun p => decide (tp ≤ (bid - p) / p) || decide ((bid - p) / p ≤ -sl))

/-- The per-marked-position removal step of check_tp_sl
(main.rs:108-111): retain every position whose entry price differs from
the marked value, then execute a sell at the current bid. -/
def sellStep (st : TradingState) (bid position : ℚ) : TradingState :=
  let st1 := { st with positions := st.positions.filter (fun x => decide (x ≠ position)) }
  execute_trade st1 bid sellSide TRADE_SIZE TRANSACTION_COST

/-- TradingState::check_tp_sl (main.rs:86-112): mark, then run the
removal step once per marked position, in order. -/
def check_tp_sl (st : TradingState) (bid tp sl : ℚ) : TradingState :=
  (markPositions st.positions bid tp sl).foldl
    (fun s position => sellStep s bid position) st

/-- TradingState::calculate_portfolio_value (main.rs:114-117). -/
def calculate_portfolio_value (st : TradingState) (bid : ℚ) : ℚ :=
  let position_value : ℚ := (st.positions.length : ℚ) * TRADE_SIZE * bid
  st.cash + position_value

/-- The entry decision taken by one iteration of the evaluation loop. -/
inductive Action where
  | buyAt : FP → Action
  | sellAt : FP → Action
  | noAction : Action
deriving DecidableEq, Repr

/-- The mid-price expression of the loop body, computed at main.rs:140
(as last_price) and again at main.rs:149 (as the second argument of
calculate_mpb). -/
def loopMid (bid ask : FP) : FP :=
  fpDiv (fpAdd bid ask) (FP.fin 2)

/-- The mpb value the loop feeds to the entry rule (main.rs:140,149):
the difference of two syntactically identical mid-price expressions. -/
def loop_mpb (bid ask : FP) : FP :=
  calculate_mpb (loopMid bid ask) (loopMid bid ask)

/-- The entry rule of one loop iteration (main.rs:135-161): read the
best bid and ask (indexing level 0 panics on an empty side, modelled as
none), derive spread, voi, oir and mpb, and pick at most one action.
The positions_nonempty flag stands for !trading_state.positions.is_empty()
at main.rs:158. -/
def loop_decision (order_book : OrderBook) (positions_nonempty : Bool) :
    Option Action :=
  match order_book.bids, order_book.asks with
  | bid0 :: _, ask0 :: _ =>
      let bid := bid0.price
      let ask := ask0.price
      let spread := calculate_spread bid ask
      let v := calculate_voi order_book
      let voi := v.1
      let bid_volume := v.2.1
      let ask_volume := v.2.2
      let oir := calculate_oir bid_volume ask_volume
      let mpb := loop_mpb bid ask
      some
        (if should_trade spread voi (FP.fin SPREAD_THRESHOLD) then
          if fpLt (FP.fin 0) voi && fpLt (FP.fin (1 / 10)) oir then
            Action.buyAt bid
          else if fpLt voi (FP.fin 0) && fpLt mpb (FP.fin (-(1 / 10)))
              && positions_nonempty then
            Action.sellAt ask
          else Action.noAction
        else Action.noAction)
  | _, _ => none

/-- C1: in the claim's take-profit scenario (one open position at entry
100, cash 1000, check_tp_sl at bid 102 with tp 0.01 and sl 0.02) the
position is closed, but cash is left exactly unchanged at 1000: the
retain at main.rs:109 empties the positions vector before the sell at
main.rs:110 runs, so the pop inside execute_trade finds nothing and no
sale proceeds are credited.  Hence the claimed rise of
100*TRADE_SIZE*1.01 minus the transaction cost, within tolerance 1e-5,
fails (the repository's own test test_check_tp_sl asserts it). -/
theorem C1_take_profit_leaves_cash_unchanged :
    (check_tp_sl { cash := 1000, positions := [100], symbol := btcUsdt } 102
        TAKE_PROFIT STOP_LOSS).positions = [] ∧
    (check_tp_sl { cash := 1000, positions := [100], symbol := btcUsdt } 102
        TAKE_PROFIT STOP_LOSS).cash = 1000 ∧
    ¬ |(check_tp_sl { cash := 1000, positions := [100], symbol := btcUsdt } 102
          TAKE_PROFIT STOP_LOSS).cash -
        (1000 + 100 * TRADE_SIZE * (101 / 100) -
          102 * TRADE_SIZE * TRANSACTION_COST)| < 1 / 100000 := by
  norm_num [check_tp_sl, markPositions, sellStep, execute_trade, TAKE_PROFIT,
    STOP_LOSS, TRADE_SIZE, TRANSACTION_COST, buySide, sellSide, abs_sub_comm,
    show ¬ ("sell" = "buy") by decide]
  rw [abs_of_nonneg (show (0 : ℚ) ≤ 10049 / 100000 by norm_num)]
  norm_num

/-- C3 (counterexample): with two open positions sharing entry price
100, a single risk-exit trigger step (the retain plus sell of
main.rs:108-111, for the marked value 100) removes both of them, so a
single trigger removes more than one position. -/
theorem C3_counterexample :
    ({ cash := 1000, positions := [100, 100], symbol := btcUsdt } :
        TradingState).positions.length = 2 ∧
    (sellStep { cash := 1000, positions := [100, 100], symbol := btcUsdt }
        102 100).positions.length = 0 := by
  norm_num [sellStep, execute_trade, TRADE_SIZE, TRANSACTION_COST, buySide,
    sellSide, show ¬ ("sell" = "buy") by decide]

/-- C3 (amended): a discretionary sell execution removes at most one
position, the most recently added one (dropLast, a no-op on an empty
vector); but a single risk-exit trigger step first removes every
position whose entry price equals the marked value and then the sell
additionally pops the most recent remaining position when one is left,
so with duplicated entry prices (or with other positions still open) a
single trigger removes more than one position. -/
theorem C3_removals_per_trigger (st : TradingState) (bid p price ts fee : ℚ) :
    (execute_trade st price sellSide ts fee).positions = st.positions.dropLast ∧
    (sellStep st bid p).positions =
      (st.positions.filter (fun x => decide (x ≠ p))).dropLast := by
  constructor
  · unfold execute_trade
    rw [if_neg (by decide : ¬ sellSide = buySide), if_pos rfl]
    cases h : st.positions.getLast? with
    | some q => rfl
    | none =>
        have h2 : st.positions = [] := List.getLast?_eq_none_iff.mp h
        rw [h2]
        rfl
  · unfold sellStep execute_trade
    rw [if_neg (by decide : ¬ sellSide = buySide), if_pos rfl]
    cases h : (st.positions.filter (fun x => decide (x ≠ p))).getLast? with
    | some q => rfl
    | none =>
        have h2 : st.positions.filter (fun x => decide (x ≠ p)) = [] :=
          List.getLast?_eq_none_iff.mp h
        rw [h2]
        rfl

/-- C4: a buy at price p, size s, fee f debits cash by exactly
p*s*(1+f) and appends one position; the subsequent sell at the same
arguments removes one position and credits cash by exactly p*s*(1-f)
(exact rational model of the f64 arithmetic). -/
theorem C4_execute_trade_cash_conservation (st : TradingState) (p s f : ℚ) :
    (execute_trade st p buySide s f).cash = st.cash - p * s * (1 + f) ∧
    (execute_trade st p buySide s f).positions.length =
      st.positions.length + 1 ∧
    (execute_trade (execute_trade st p buySide s f) p sellSide s f).positions.length
      = st.positions.length ∧
    (execute_trade (execute_trade st p buySide s f) p sellSide s f).cash
      = (execute_trade st p buySide s f).cash + p * s * (1 - f) := by
  have hbuy : execute_trade st p buySide s f =
      { st with
        positions := st.positions ++ [p],
        cash := st.cash - (p * s + s * p * f) } := by
    unfold execute_trade
    rw [if_pos rfl]
  have hsell : execute_trade (execute_trade st p buySide s f) p sellSide s f =
      { st with
        positions := (st.positions ++ [p]).dropLast,
        cash := st.cash - (p * s + s * p * f) + (p * s - s * p * f) } := by
    rw [hbuy]
    unfold execute_trade
    rw [if_neg (by decide : ¬ sellSide = buySide), if_pos rfl]
    simp
  refine ⟨?_, ?_, ?_, ?_⟩
  · rw [hbuy]; ring_nf
  · rw [hbuy]; simp
  · rw [hsell]; simp
  · rw [hsell, hbuy]; ring_nf

/-- C7: the sell side of execute_trade with zero open positions is a
no-op: the state (cash and positions included) is returned unchanged. -/
theorem C7_sell_with_no_positions_is_noop (st : TradingState)
    (price trade_size fee : ℚ) (h : st.positions = []) :
    execute_trade st price sellSide trade_size fee = st := by
  obtain ⟨c, pos, sym⟩ := st
  change pos = [] at h
  subst h
  rfl

/-- C7 witness: concrete instance of the no-op sell. -/
theorem C7_sell_with_no_positions_is_noop_witness :
    execute_trade { cash := 1000, positions := [], symbol := btcUsdt } 5
        sellSide 1 1 =
      { cash := 1000, positions := [], symbol := btcUsdt } :=
  C7_sell_with_no_positions_is_noop
    { cash := 1000, positions := [], symbol := btcUsdt } 5 1 1 rfl

/-- C8 (counterexample): for bid -2 and ask -1 we have ask >= bid, yet
calculate_spread returns -50, which is negative; so non-negativity of
the spread fails without a positivity assumption on the bid. -/
theorem C8_counterexample :
    fpLe (FP.fin (-2)) (FP.fin (-1)) = true ∧
    calculate_spread (FP.fin (-2)) (FP.fin (-1)) = FP.fin (-50) ∧
    fpLt (calculate_spread (FP.fin (-2)) (FP.fin (-1))) (FP.fin 0) = true := by
  norm_num [calculate_spread, fpSub, fpNeg, fpAdd, fpDiv, fpMul, fpLe, fpLt]

/-- C8 (amended): for finite prices with 0 < bid and bid <= ask, the
spread is non-negative in the sense of the IEEE comparison 0 <= spread
(in f64 the spread may overflow to +infinity, which still satisfies
the comparison; it is never negative); and calculate_spread(100, 101)
is exactly 1. -/
theorem C8_spread_nonneg_for_positive_bid (b a : ℚ) (hb : 0 < b)
    (hba : b ≤ a) :
    fpLe (FP.fin 0) (calculate_spread (FP.fin b) (FP.fin a)) = true ∧
    calculate_spread (FP.fin 100) (FP.fin 101) = FP.fin 1 := by
  constructor
  · have hspread : calculate_spread (FP.fin b) (FP.fin a) =
        FP.fin ((a - b) / b * 100) := by
      simp [calculate_spread, fpSub, fpNeg, fpAdd, fpDiv, fpMul, hb.ne',
        sub_eq_add_neg]
    rw [hspread]
    have hab : 0 ≤ a - b := by linarith
    simp only [fpLe, decide_eq_true_eq]
    positivity
  · norm_num [calculate_spread, fpSub, fpNeg, fpAdd, fpDiv, fpMul]

/-- C8 witness: the amended theorem applied at bid 100, ask 101. -/
theorem C8_spread_nonneg_for_positive_bid_witness :
    calculate_spread (FP.fin 100) (FP.fin 101) = FP.fin 1 :=
  (C8_spread_nonneg_for_positive_bid 100 101 (by norm_num) (by norm_num)).2

/-- C9: calculate_portfolio_value returns cash plus position count
times TRADE_SIZE times the bid; it takes the state immutably (in the
embedding it is a pure function of the state), and two calls with no
mutation in between agree. -/
theorem C9_portfolio_value_formula (st : TradingState) (bid : ℚ) :
    calculate_portfolio_value st bid =
      st.cash + (st.positions.length : ℚ) * TRADE_SIZE * bid ∧
    calculate_portfolio_value st bid = calculate_portfolio_value st bid :=
  ⟨rfl, rfl⟩

/-- C2 (counterexample): a snapshot with best bid 0 and best ask -1
makes calculate_spread return negative infinity, yet the entry rule
still executes a buy (spread <= threshold holds for -inf, and voi = 1,
oir = 1/3 pass the buy conditions), so a non-finite spread does not
always suppress trading. -/
theorem C2_counterexample :
    calculate_spread (FP.fin 0) (FP.fin (-1)) = FP.ninf ∧
    loop_decision
      { bids := [{ price := FP.fin 0, amount := FP.fin 2 }],
        asks := [{ price := FP.fin (-1), amount := FP.fin 1 }] } false =
      some (Action.buyAt (FP.fin 0)) := by
  norm_num [loop_decision, calculate_spread, calculate_voi, calculate_oir,
    loop_mpb, loopMid, calculate_mpb, sumAmounts, should_trade,
    SPREAD_THRESHOLD, fpSub, fpNeg, fpAdd, fpDiv, fpMul, fpLe, fpLt, fpAbs]

/-- C2 (amended): when the computed spread is NaN or positive infinity
the IEEE comparison spread <= SPREAD_THRESHOLD is false, so the entry
rule takes no buy or sell action that tick; only a spread of negative
infinity slips through the gate. -/
theorem C2_no_action_on_nan_or_posinf_spread (b0 a0 : Level)
    (bs asks' : List Level) (pne : Bool)
    (h : calculate_spread b0.price a0.price = FP.nan ∨
         calculate_spread b0.price a0.price = FP.inf) :
    loop_decision { bids := b0 :: bs, asks := a0 :: asks' } pne =
      some Action.noAction := by
  have hst : should_trade (calculate_spread b0.price a0.price)
      (calculate_voi { bids := b0 :: bs, asks := a0 :: asks' }).1
      (FP.fin SPREAD_THRESHOLD) = false := by
    rcases h with h | h <;> simp [should_trade, h, fpLe]
  simp [loop_decision, hst]

/-- C2 witness: a snapshot with NaN best bid yields a NaN spread and no
action. -/
theorem C2_no_action_on_nan_or_posinf_spread_witness :
    loop_decision
      { bids := [{ price := FP.nan, amount := FP.fin 1 }],
        asks := [{ price := FP.fin 1, amount := FP.fin 1 }] } false =
      some Action.noAction :=
  C2_no_action_on_nan_or_posinf_spread { price := FP.nan, amount := FP.fin 1 }
    { price := FP.fin 1, amount := FP.fin 1 } [] [] false
    (Or.inl (by simp [calculate_spread, fpSub, fpNeg, fpAdd, fpDiv, fpMul]))

/-- C5 (counterexample): a snapshot whose best bid is positive infinity
gives mpb = inf - inf = NaN, not 0, so the computed mpb is not 0 for
every snapshot the loop can process. -/
theorem C5_counterexample :
    loop_mpb FP.inf (FP.fin 1) = FP.nan ∧ FP.nan ≠ FP.fin 0 :=
  ⟨by norm_num [loop_mpb, loopMid, calculate_mpb, fpAdd, fpSub, fpNeg, fpDiv],
   by decide⟩

/-- C5 (amended): the loop recomputes last_price as the same mid-price
expression it diffs against, so mpb is exactly 0 whenever the computed
mid-price value is finite (in IEEE arithmetic x - x = 0 for every
finite x), and NaN whenever that mid-price value is non-finite (a NaN
or infinite best price; in f64 also an overflowing bid+ask).  In
particular mpb is never a nonzero finite value.  The statement
conditions on the computed mid-price itself, so it does not depend on
when the model's finite arithmetic stays finite. -/
theorem C5_mpb_zero_iff_mid_finite (bid ask : FP) :
    ((loopMid bid ask).isFinite = true → loop_mpb bid ask = FP.fin 0) ∧
    ((loopMid bid ask).isFinite = false → loop_mpb bid ask = FP.nan) := by
  have h : loop_mpb bid ask =
      calculate_mpb (loopMid bid ask) (loopMid bid ask) := rfl
  cases hm : loopMid bid ask <;>
    simp [h, hm, calculate_mpb, fpSub, fpNeg, fpAdd, FP.isFinite]

/-- C5 witness: a snapshot with finite, non-overflowing best prices has
a finite mid-price and mpb exactly 0. -/
theorem C5_mpb_zero_iff_mid_finite_witness :
    loop_mpb (FP.fin 100) (FP.fin 101) = FP.fin 0 :=
  (C5_mpb_zero_iff_mid_finite (FP.fin 100) (FP.fin 101)).1
    (by norm_num [loopMid, fpAdd, fpDiv, FP.isFinite])

/-- Folding IEEE addition over finite nonnegative values starting from
a finite nonnegative accumulator stays finite and nonnegative. -/
theorem foldl_fpAdd_fin_nonneg (amounts : List FP) (a : ℚ) (ha : 0 ≤ a)
    (h : ∀ x ∈ amounts, ∃ q : ℚ, 0 ≤ q ∧ x = FP.fin q) :
    ∃ q : ℚ, 0 ≤ q ∧ amounts.foldl fpAdd (FP.fin a) = FP.fin q := by
  induction amounts generalizing a with
  | nil => exact ⟨a, ha, rfl⟩
  | cons x xs ih =>
      obtain ⟨q, hq, hx⟩ := h x (List.mem_cons_self x xs)
      subst hx
      have hrec := ih (a + q) (add_nonneg ha hq)
        (fun y hy => h y (List.mem_cons_of_mem _ hy))
      simpa [fpAdd] using hrec

/-- A side whose level amounts are all finite and nonnegative has a
finite nonnegative volume. -/
theorem sumAmounts_fin_nonneg (levels : List Level)
    (h : ∀ l ∈ levels, ∃ q : ℚ, 0 ≤ q ∧ l.amount = FP.fin q) :
    ∃ q : ℚ, 0 ≤ q ∧ sumAmounts levels = FP.fin q := by
  unfold sumAmounts
  refine foldl_fpAdd_fin_nonneg _ 0 le_rfl ?_
  intro x hx
  rw [List.mem_map] at hx
  obtain ⟨l, hl, rfl⟩ := hx
  exact h l hl

/-- C6 (counterexample): with a bid-side volume of 5 and an ask-side
volume of -5 the total volume is 0 but oir = 10/0 = +inf, not NaN, and
the entry rule executes a buy (spread 0.02 passes the gate, voi = 10,
oir = +inf > 0.1), so zero total volume alone neither forces a NaN oir
nor disables entry. -/
theorem C6_counterexample :
    fpAdd (sumAmounts [{ price := FP.fin 100, amount := FP.fin 5 }])
        (sumAmounts [{ price := FP.fin (5001 / 50), amount := FP.fin (-5) }])
      = FP.fin 0 ∧
    calculate_oir (sumAmounts [{ price := FP.fin 100, amount := FP.fin 5 }])
        (sumAmounts [{ price := FP.fin (5001 / 50), amount := FP.fin (-5) }])
      = FP.inf ∧
    loop_decision
      { bids := [{ price := FP.fin 100, amount := FP.fin 5 }],
        asks := [{ price := FP.fin (5001 / 50), amount := FP.fin (-5) }] }
      false = some (Action.buyAt (FP.fin 100)) := by
  norm_num [loop_decision, calculate_spread, calculate_voi, calculate_oir,
    loop_mpb, loopMid, calculate_mpb, sumAmounts, should_trade,
    SPREAD_THRESHOLD, fpSub, fpNeg, fpAdd, fpDiv, fpMul, fpLe, fpLt, fpAbs]

/-- C6 (amended): for a snapshot whose level amounts are all finite and
nonnegative, a zero total volume forces both side volumes to be zero;
then oir = 0/0 is NaN, voi = 0 fails the abs(voi) > 0 gate, and the
entry rule takes no action that tick. -/
theorem C6_zero_volume_disables_entry (b0 a0 : Level) (bs asks' : List Level)
    (pne : Bool)
    (hb : ∀ l ∈ (b0 :: bs), ∃ q : ℚ, 0 ≤ q ∧ l.amount = FP.fin q)
    (ha : ∀ l ∈ (a0 :: asks'), ∃ q : ℚ, 0 ≤ q ∧ l.amount = FP.fin q)
    (hz : fpAdd (sumAmounts (b0 :: bs)) (sumAmounts (a0 :: asks')) =
      FP.fin 0) :
    calculate_oir (sumAmounts (b0 :: bs)) (sumAmounts (a0 :: asks')) =
      FP.nan ∧
    loop_decision { bids := b0 :: bs, asks := a0 :: asks' } pne =
      some Action.noAction := by
  obtain ⟨qb, hqb, hsb⟩ := sumAmounts_fin_nonneg _ hb
  obtain ⟨qa, hqa, hsa⟩ := sumAmounts_fin_nonneg _ ha
  rw [hsb, hsa] at hz
  have hsum : qb + qa = 0 := by simpa [fpAdd] using hz
  have hqb0 : qb = 0 := by linarith
  have hqa0 : qa = 0 := by linarith
  subst hqb0
  subst hqa0
  constructor
  · rw [hsb, hsa]
    norm_num [calculate_oir, fpSub, fpNeg, fpAdd, fpDiv]
  · have hvoi :
        (calculate_voi { bids := b0 :: bs, asks := a0 :: asks' }).1 =
          FP.fin 0 := by
      simp [calculate_voi, hsb, hsa, fpSub, fpNeg, fpAdd]
    norm_num [loop_decision, hvoi, should_trade, fpAbs, fpLt]

/-- C6 witness: a snapshot with both level amounts 0 has zero total
volume, NaN oir, and no entry action. -/
theorem C6_zero_volume_disables_entry_witness :
    calculate_oir (sumAmounts [{ price := FP.fin 100, amount := FP.fin 0 }])
        (sumAmounts [{ price := FP.fin 101, amount := FP.fin 0 }]) =
      FP.nan ∧
    loop_decision
      { bids := [{ price := FP.fin 100, amount := FP.fin 0 }],
        asks := [{ price := FP.fin 101, amount := FP.fin 0 }] } false =
      some Action.noAction :=
  C6_zero_volume_disables_entry { price := FP.fin 100, amount := FP.fin 0 }
    { price := FP.fin 101, amount := FP.fin 0 } [] [] false
    (by intro l hl
        rw [List.mem_singleton] at hl
        subst hl
        exact ⟨0, le_refl 0, rfl⟩)
    (by intro l hl
        rw [List.mem_singleton] at hl
        subst hl
        exact ⟨0, le_refl 0, rfl⟩)
    (by norm_num [sumAmounts, fpAdd])

/-- The mpb the loop computes never tests below -0.1: it is 0 for
finite prices and NaN otherwise, and both compare false. -/
theorem loop_mpb_not_lt (bid ask : FP) :
    fpLt (loop_mpb bid ask) (FP.fin (-(1 / 10))) = false := by
  cases bid <;> cases ask <;>
    simp [loop_mpb, loopMid, calculate_mpb, fpAdd, fpSub, fpNeg, fpDiv,
      fpLt] <;>
    norm_num

/-- C10: the discretionary sell branch of the entry rule never fires:
whatever snapshot the loop processes and whatever the position flag,
the decision is never a sell, because the mpb < -0.1 comparison is
false both at mpb = 0 (finite prices) and at mpb = NaN. -/
theorem C10_sell_branch_unreachable (ob : OrderBook) (pne : Bool)
    (act : Action) (h : loop_decision ob pne = some act) (p : FP) :
    act ≠ Action.sellAt p := by
  obtain ⟨bids, asks⟩ := ob
  cases bids with
  | nil => simp [loop_decision] at h
  | cons b0 bs =>
    cases asks with
    | nil => simp [loop_decision] at h
    | cons a0 asks' =>
      have hm := loop_mpb_not_lt b0.price a0.price
      simp only [loop_decision, hm, Bool.and_false, Bool.false_and,
        Bool.false_eq_true, if_false, Option.some.injEq] at h
      split at h
      · split at h
        · subst h; simp
        · subst h; simp
      · subst h; simp

/-- C10 witness: a concrete wide-spread snapshot decides noAction,
which is not a sell. -/
theorem C10_sell_branch_unreachable_witness :
    Action.noAction ≠ Action.sellAt (FP.fin 5) :=
  C10_sell_branch_unreachable
    { bids := [{ price := FP.fin 100, amount := FP.fin 1 }],
      asks := [{ price := FP.fin 200, amount := FP.fin 1 }] } false
    Action.noAction
    (by norm_num [loop_decision, calculate_spread, calculate_voi,
      sumAmounts, should_trade, SPREAD_THRESHOLD, fpSub, fpNeg, fpAdd,
      fpDiv, fpMul, fpLe, fpLt, fpAbs])
    (FP.fin 5)

end FastImbalance
